import Mathlib

/-!
Shallow embedding of the Image-Edit-Studio scene editor
(src/components/SimpleEditor.tsx) and proofs about its layer ordering,
crop clamping, resize math, background switching, export pipeline,
eraser tool and white-background removal.

Numeric pixel/percent quantities are modelled over the rationals.
-/

namespace ImageEditStudio

/-- Crop percentages of an element (interface CropData). -/
structure CropData where
  top : ℚ
  right : ℚ
  bottom : ℚ
  left : ℚ
deriving DecidableEq

/-- Border stroke style of an element border. -/
inductive BorderStyle where
  | solid
  | dashed
  | dotted
deriving DecidableEq

/-- Border of an element (interface BorderData). -/
structure BorderData where
  width : ℚ
  style : BorderStyle
  color : String
deriving DecidableEq

/-- Shadow of an element (interface ShadowData). -/
structure ShadowData where
  color : String
  opacity : ℚ
  x : ℚ
  y : ℚ
  blur : ℚ
deriving DecidableEq

/-- Shape kind of a shape element. -/
inductive ShapeType where
  | rectangle
  | circle
deriving DecidableEq

/-- Horizontal text alignment. -/
inductive Align where
  | left
  | center
  | right
deriving DecidableEq

/-- Variant-specific payload of an element
(TextElement, ImageElement, ShapeElement fields beyond BaseElement). -/
inductive ElementKind where
  | text (content : String) (fontSize : ℚ) (fontFamily : String)
      (color : String) (align : Align) (shadowEnabled : Bool)
  | image (src : String) (width : ℚ) (height : ℚ) (aspectRatio : ℚ)
      (borderRadius : Option ℚ)
  | shape (shapeType : ShapeType) (width : ℚ) (height : ℚ) (color : String)
      (borderRadius : Option ℚ)
deriving DecidableEq

/-- The three element type tags. -/
inductive ElementType where
  | text
  | image
  | shape
deriving DecidableEq

/-- One scene element (BaseElement plus its variant payload). -/
structure EditorElement where
  id : String
  x : ℚ
  y : ℚ
  rotation : ℚ
  zIndex : Nat
  crop : Option CropData
  border : Option BorderData
  shadow : Option ShadowData
  opacity : Option ℚ
  kind : ElementKind
deriving DecidableEq

/-- Tag of an element's variant. -/
def EditorElement.elementType (el : EditorElement) : ElementType :=
  match el.kind with
  | .text _ _ _ _ _ _ => .text
  | .image _ _ _ _ _ => .image
  | .shape _ _ _ _ _ => .shape

/-- Image-background parameters (BackgroundState.image). -/
structure BgImage where
  src : String
  x : ℚ
  y : ℚ
  scale : ℚ
deriving DecidableEq

/-- Background variant tag. -/
inductive BgType where
  | image
  | solid
  | gradient
deriving DecidableEq

/-- Gradient parameters (BackgroundState.gradient). -/
structure GradientData where
  gtype : String
  direction : String
  colors : List String
deriving DecidableEq

/-- The background state object (interface BackgroundState): a type tag
plus optional per-variant parameter groups, exactly as the source keeps
them side by side in one record. -/
structure BackgroundState where
  type : BgType
  image : Option BgImage
  color : Option String
  gradient : Option GradientData
deriving DecidableEq

/-- The full-canvas overlay (color and opacity). -/
structure OverlayState where
  color : String
  opacity : ℚ
deriving DecidableEq

/-! ## Layer management (moveLayer) -/

/-- Reorder direction accepted by moveLayer. -/
inductive Direction where
  | up
  | down
  | top
  | bottom
deriving DecidableEq

/-- Index of the first list entry satisfying a predicate, mirroring
Array.prototype.findIndex (none plays the role of the -1 result). -/
def findIndex (p : α → Bool) : List α → Option Nat
  | [] => none
  | a :: as => if p a then some 0 else (findIndex p as).map (· + 1)

/-- Swap the entries at positions i and i+1; identity when i+1 is out of
range.  This is the two-assignment swap used in the up and down branches
of moveLayer. -/
def swapAt : List α → Nat → List α
  | a :: b :: rest, 0 => b :: a :: rest
  | a :: rest, n + 1 => a :: swapAt rest n
  | l, _ => l

/-- moveLayer from SimpleEditor.tsx: finds the selected element by id and
moves it inside the elements array.  The selection can be absent or the
background sentinel, in which case nothing happens. -/
def moveLayer (selectedId : Option String) (elements : List EditorElement)
    (direction : Direction) : List EditorElement :=
  match selectedId with
  | none => elements
  | some sel =>
    if sel = "bg" then elements
    else
      match findIndex (fun e => e.id == sel) elements with
      | none => elements
      | some index =>
        match direction with
        | .up =>
          if index < elements.length - 1 then swapAt elements index else elements
        | .down =>
          if 0 < index then swapAt elements (index - 1) else elements
        | .top =>
          match elements[index]? with
          | some el => elements.eraseIdx index ++ [el]
          | none => elements
        | .bottom =>
          match elements[index]? with
          | some el => el :: elements.eraseIdx index
          | none => elements

/-- A minimal concrete shape element used in concrete evaluations. -/
def sampleShape (id : String) (z : Nat) : EditorElement :=
  { id := id, x := 250, y := 250, rotation := 0, zIndex := z
    crop := some ⟨0, 0, 0, 0⟩, border := none
    shadow := some ⟨"#000000", 1, 5, 5, 10⟩, opacity := none
    kind := .shape .rectangle 150 150 "#3b82f6" (some 0) }

theorem swapAt_cons_cons_zero (a b : α) (l : List α) :
    swapAt (a :: b :: l) 0 = b :: a :: l := rfl

theorem swapAt_cons_succ (a : α) (l : List α) (n : Nat) :
    swapAt (a :: l) (n + 1) = a :: swapAt l n := by cases l <;> rfl

theorem swapAt_append (pre : List α) (a b : α) (post : List α) :
    swapAt (pre ++ a :: b :: post) pre.length = pre ++ b :: a :: post := by
  induction pre with
  | nil => rfl
  | cons x xs ih => simp [List.cons_append, swapAt_cons_succ, ih]

theorem findIndex_append_cons (p : α → Bool) (pre : List α) (a : α) (rest : List α)
    (hpre : ∀ e ∈ pre, p e = false) (ha : p a = true) :
    findIndex p (pre ++ a :: rest) = some pre.length := by
  induction pre with
  | nil => simp [findIndex, ha]
  | cons x xs ih =>
    have hx : p x = false := hpre x (by simp)
    simp [findIndex, hx, ih (fun e he => hpre e (by simp [he]))]

/-- C1 (amended): moving a layer up and then down restores the original
z-order whenever the selected element is not already the topmost one,
its id is unique in the stack, and it is a real element (not the
background sentinel).  The decomposition pre ++ a :: b :: post makes
"not topmost" structural: some element b sits above a. -/
theorem moveLayer_up_down_roundtrip (pre post : List EditorElement) (a b : EditorElement)
    (hpre : ∀ e ∈ pre, e.id ≠ a.id) (hb : b.id ≠ a.id) (hbg : ¬ (a.id = "bg")) :
    moveLayer (some a.id) (moveLayer (some a.id) (pre ++ a :: b :: post) .up) .down
      = pre ++ a :: b :: post := by
  have hpre' : ∀ e ∈ pre, (e.id == a.id) = false :=
    fun e he => beq_eq_false_iff_ne.mpr (hpre e he)
  have hbF : (b.id == a.id) = false := beq_eq_false_iff_ne.mpr hb
  have h1 : moveLayer (some a.id) (pre ++ a :: b :: post) .up = pre ++ b :: a :: post := by
    have hcond : pre.length < (pre ++ a :: b :: post).length - 1 := by
      simp [List.length_append]
    simp only [moveLayer, if_neg hbg,
      findIndex_append_cons _ pre a (b :: post) hpre' (beq_self_eq_true a.id)]
    rw [if_pos hcond, swapAt_append]
  have h2 : moveLayer (some a.id) (pre ++ b :: a :: post) .down = pre ++ a :: b :: post := by
    have hfind : findIndex (fun e => e.id == a.id) (pre ++ b :: a :: post)
        = some (pre.length + 1) := by
      have hall : ∀ e ∈ pre ++ [b], (fun e => e.id == a.id) e = false := by
        intro e he
        rcases List.mem_append.mp he with h | h
        · exact hpre' e h
        · simp only [List.mem_singleton] at h
          subst h
          exact hbF
      have := findIndex_append_cons (fun e => e.id == a.id) (pre ++ [b]) a post
        hall (beq_self_eq_true a.id)
      simpa [List.append_assoc] using this
    simp only [moveLayer, if_neg hbg, hfind]
    rw [if_pos (Nat.succ_pos _)]
    simpa using swapAt_append pre b a post
  rw [h1, h2]

/-- C1 counterexample: on the stack [a, b] with the topmost element b
selected, moving up is a silent no-op but moving down still swaps, so
the up-then-down round trip does not restore the original order. -/
theorem moveLayer_up_down_cex :
    moveLayer (some "b")
      (moveLayer (some "b") [sampleShape "a" 0, sampleShape "b" 1] .up) .down
      ≠ [sampleShape "a" 0, sampleShape "b" 1] := by decide

/-- Witness for the amended C1 theorem at a concrete two-element stack. -/
theorem moveLayer_up_down_roundtrip_witness :
    moveLayer (some ((sampleShape "a" 0).id))
      (moveLayer (some ((sampleShape "a" 0).id))
        [sampleShape "a" 0, sampleShape "b" 1] .up) .down
      = [sampleShape "a" 0, sampleShape "b" 1] :=
  moveLayer_up_down_roundtrip [] [] (sampleShape "a" 0) (sampleShape "b" 1)
    (by simp) (by decide) (by decide)

/-! ## Element creation (addImageElement, addText, addShape) and deletion -/

/-- The image element built by addImageElement once the pasted or
uploaded image has decoded with intrinsic pixel size imgW by imgH.  The
new element is centered on the canvas and carries stack position z. -/
def mkImageElement (newId : String) (canvasW canvasH : ℚ) (z : Nat) (src : String)
    (imgW imgH : ℚ) : EditorElement :=
  let ar := imgW / imgH
  let width := if 1 ≤ ar then 200 else 200 * ar
  let height := if 1 ≤ ar then 200 / ar else 200
  { id := newId, x := canvasW / 2, y := canvasH / 2, rotation := 0, zIndex := z
    crop := some ⟨0, 0, 0, 0⟩
    border := some ⟨0, .solid, "#000000"⟩
    shadow := some ⟨"#000000", 0.5, 0, 0, 0⟩
    opacity := none
    kind := .image src width height ar (some 0) }

/-- addImageElement: appends the decoded image element with zIndex set
to the current stack length and selects it. -/
def addImageElement (newId : String) (canvasW canvasH : ℚ)
    (elements : List EditorElement) (src : String) (imgW imgH : ℚ) :
    List EditorElement × Option String :=
  (elements ++ [mkImageElement newId canvasW canvasH elements.length src imgW imgH],
   some newId)

/-- addText: appends a default text element and selects it. -/
def addText (newId : String) (canvasW canvasH : ℚ) (elements : List EditorElement) :
    List EditorElement × Option String :=
  let newEl : EditorElement :=
    { id := newId, x := canvasW / 2, y := canvasH / 2, rotation := 0
      zIndex := elements.length
      crop := none, border := none
      shadow := some ⟨"#000000", 0.8, 2, 2, 4⟩
      opacity := none
      kind := .text "Nhập văn bản..." 24 "font-roboto" "#ffffff" .center true }
  (elements ++ [newEl], some newId)

/-- addShape: appends a default 150 by 150 shape element and selects it. -/
def addShape (newId : String) (canvasW canvasH : ℚ) (elements : List EditorElement)
    (shapeType : ShapeType) : List EditorElement × Option String :=
  let newEl : EditorElement :=
    { id := newId, x := canvasW / 2, y := canvasH / 2, rotation := 0
      zIndex := elements.length
      crop := some ⟨0, 0, 0, 0⟩, border := none
      shadow := some ⟨"#000000", 0.5, 5, 5, 10⟩
      opacity := none
      kind := .shape shapeType 150 150 "#3b82f6" (some 0) }
  (elements ++ [newEl], some newId)

/-- Element-stack effect of deleteSelected: selecting the background only
resets the background, otherwise the selected id is filtered out. -/
def deleteSelected (selectedId : Option String) (elements : List EditorElement) :
    List EditorElement :=
  if selectedId = some "bg" then elements
  else elements.filter (fun t => !(some t.id == selectedId))

/-! ## The stored zIndex rank against the array position -/

/-- Checks that successive elements carry the stored ranks n, n+1, and
so on. -/
def zIndexOkFrom : Nat → List EditorElement → Bool
  | _, [] => true
  | n, e :: es => e.zIndex == n && zIndexOkFrom (n + 1) es

/-- Every element's stored zIndex field equals its index in the array. -/
def zIndexOk (elements : List EditorElement) : Bool := zIndexOkFrom 0 elements

theorem zIndexOkFrom_append (l : List EditorElement) (e : EditorElement) :
    ∀ n, zIndexOkFrom n (l ++ [e])
      = (zIndexOkFrom n l && (e.zIndex == n + l.length)) := by
  induction l with
  | nil => intro n; simp [zIndexOkFrom]
  | cons x xs ih =>
    intro n
    simp [zIndexOkFrom, ih (n + 1), Bool.and_assoc, Nat.add_assoc, Nat.add_comm 1]

theorem mem_swapAt {e : α} : ∀ (l : List α) (i : Nat), e ∈ swapAt l i → e ∈ l := by
  intro l
  induction l with
  | nil => intro i h; exact h
  | cons a tail ih =>
    intro i h
    match i, tail with
    | 0, [] => exact h
    | 0, b :: rest =>
      rw [swapAt_cons_cons_zero] at h
      simp only [List.mem_cons] at h ⊢
      tauto
    | n + 1, tail =>
      rw [swapAt_cons_succ] at h
      simp only [List.mem_cons] at h ⊢
      rcases h with h | h
      · exact Or.inl h
      · exact Or.inr (ih n h)

theorem mem_moveLayer {e : EditorElement} (selectedId : Option String)
    (elements : List EditorElement) (direction : Direction)
    (h : e ∈ moveLayer selectedId elements direction) : e ∈ elements := by
  unfold moveLayer at h
  match selectedId with
  | none => exact h
  | some sel =>
    simp only at h
    by_cases hbg : sel = "bg"
    · rwa [if_pos hbg] at h
    rw [if_neg hbg] at h
    match hf : findIndex (fun x => x.id == sel) elements with
    | none => rw [hf] at h; exact h
    | some index =>
      rw [hf] at h
      match direction with
      | .up =>
        simp only at h
        by_cases hc : index < elements.length - 1
        · rw [if_pos hc] at h; exact mem_swapAt elements index h
        · rwa [if_neg hc] at h
      | .down =>
        simp only at h
        by_cases hc : 0 < index
        · rw [if_pos hc] at h; exact mem_swapAt elements (index - 1) h
        · rwa [if_neg hc] at h
      | .top =>
        simp only at h
        match hg : elements[index]? with
        | some el =>
          rw [hg] at h
          rcases List.mem_append.mp h with h | h
          · exact (List.eraseIdx_sublist elements index).subset h
          · simp only [List.mem_singleton] at h
            subst h
            exact List.getElem?_mem hg
        | none => rw [hg] at h; exact h
      | .bottom =>
        simp only at h
        match hg : elements[index]? with
        | some el =>
          rw [hg] at h
          rcases List.mem_cons.mp h with h | h
          · subst h; exact List.getElem?_mem hg
          · exact (List.eraseIdx_sublist elements index).subset h
        | none => rw [hg] at h; exact h

/-- C2 (amended): the stored zIndex rank equals the array index after
every element addition (addImageElement, addText and addShape each
append with zIndex set to the previous stack length), but moveLayer and
deleteSelected rearrange or remove array entries without rewriting the
stored zIndex field of any element: every element of the resulting
array is an unchanged element of the original array, so the stored rank
can diverge from the index after a reorder or a deletion. -/
theorem zIndex_rank_policy
    (newId : String) (canvasW canvasH : ℚ) (elements : List EditorElement)
    (src : String) (imgW imgH : ℚ) (shapeType : ShapeType)
    (hok : zIndexOk elements = true) :
    zIndexOk (addImageElement newId canvasW canvasH elements src imgW imgH).1 = true ∧
    zIndexOk (addText newId canvasW canvasH elements).1 = true ∧
    zIndexOk (addShape newId canvasW canvasH elements shapeType).1 = true ∧
    (∀ sel dir e, e ∈ moveLayer sel elements dir → e ∈ elements) ∧
    (∀ sel e, e ∈ deleteSelected sel elements → e ∈ elements) := by
  unfold zIndexOk at hok
  refine ⟨?_, ?_, ?_, ?_, ?_⟩
  · simp [addImageElement, zIndexOk, zIndexOkFrom_append, hok, mkImageElement]
  · simp [addText, zIndexOk, zIndexOkFrom_append, hok]
  · simp [addShape, zIndexOk, zIndexOkFrom_append, hok]
  · intro sel dir e he
    exact mem_moveLayer sel elements dir he
  · intro sel e he
    unfold deleteSelected at he
    by_cases hbg : sel = some "bg"
    · rwa [if_pos hbg] at he
    · rw [if_neg hbg] at he
      exact List.mem_of_mem_filter he

/-- C2 counterexample: a two-element stack whose stored ranks match the
array indices stops matching after one moveLayer up, because the swap
does not rewrite the zIndex fields. -/
theorem zIndex_stale_after_moveLayer_cex :
    zIndexOk [sampleShape "a" 0, sampleShape "b" 1] = true ∧
    zIndexOk (moveLayer (some "a") [sampleShape "a" 0, sampleShape "b" 1] .up) = false := by
  decide

/-- Witness for the amended C2 theorem at a concrete stack. -/
theorem zIndex_rank_policy_witness :
    zIndexOk (addText "t1" 500 500 [sampleShape "a" 0]).1 = true :=
  (zIndex_rank_policy "t1" 500 500 [sampleShape "a" 0] "img" 1 1
    ShapeType.rectangle (by decide)).2.1

/-! ## Crop-handle math (the crop branch of handleMouseMove) -/

/-- The four corner crop handles. -/
inductive CropHandle where
  | lt
  | rt
  | lb
  | rb
deriving DecidableEq

/-- One crop pointer-move: init is the pre-gesture snapshot crop,
current is the crop from the previous frame, and percentX, percentY are
the total pointer delta since gesture start converted to percent of the
element dimensions.  Each handle rewrites exactly two percentages,
clamping each between 0 and 100 minus the opposite percentage minus 5. -/
def cropMove (handle : CropHandle) (init current : CropData)
    (percentX percentY : ℚ) : CropData :=
  match handle with
  | .lt =>
    { current with
      left := min (max 0 (init.left + percentX)) (100 - current.right - 5)
      top := min (max 0 (init.top + percentY)) (100 - current.bottom - 5) }
  | .rt =>
    { current with
      right := min (max 0 (init.right - percentX)) (100 - current.left - 5)
      top := min (max 0 (init.top + percentY)) (100 - current.bottom - 5) }
  | .lb =>
    { current with
      left := min (max 0 (init.left + percentX)) (100 - current.right - 5)
      bottom := min (max 0 (init.bottom - percentY)) (100 - current.top - 5) }
  | .rb =>
    { current with
      right := min (max 0 (init.right - percentX)) (100 - current.left - 5)
      bottom := min (max 0 (init.bottom - percentY)) (100 - current.top - 5) }

/-- The crop validity invariant of the data model. -/
def cropValid (c : CropData) : Prop :=
  c.top + c.bottom < 100 ∧ c.left + c.right < 100

/-- The intermediate crop states of a gesture: cur is the crop of the
previous frame while init stays fixed at the gesture-start snapshot. -/
def cropStatesAux (handle : CropHandle) (init : CropData) :
    CropData → List (ℚ × ℚ) → List CropData
  | _, [] => []
  | cur, m :: ms =>
    let c := cropMove handle init cur m.1 m.2
    c :: cropStatesAux handle init c ms

/-- All intermediate crop states of one crop gesture that starts on the
crop state start (which is also the snapshot) and performs the given
pointer moves. -/
def cropStates (handle : CropHandle) (start : CropData)
    (moves : List (ℚ × ℚ)) : List CropData :=
  cropStatesAux handle start start moves

theorem cropMove_valid (handle : CropHandle) (init current : CropData)
    (px py : ℚ) : cropValid (cropMove handle init current px py) := by
  unfold cropValid cropMove
  cases handle <;>
    refine ⟨?_, ?_⟩ <;>
    dsimp only <;>
    linarith [min_le_right (max 0 (init.top + py)) (100 - current.bottom - 5),
      min_le_right (max 0 (init.left + px)) (100 - current.right - 5),
      min_le_right (max 0 (init.right - px)) (100 - current.left - 5),
      min_le_right (max 0 (init.bottom - py)) (100 - current.top - 5)]

/-- C3: for every crop gesture starting from a crop state satisfying
top + bottom < 100 and left + right < 100, every intermediate crop
state produced by a pointer move (any handle, any delta) still
satisfies both inequalities, because each updated percentage is clamped
against its opposite with a 5 percent gap. -/
theorem crop_gesture_states_valid (handle : CropHandle) (start : CropData)
    (moves : List (ℚ × ℚ))
    (_h1 : start.top + start.bottom < 100) (_h2 : start.left + start.right < 100) :
    ∀ c ∈ cropStates handle start moves, cropValid c := by
  suffices haux : ∀ (ms : List (ℚ × ℚ)) (cur : CropData),
      ∀ c ∈ cropStatesAux handle start cur ms, cropValid c from
    haux moves start
  intro ms
  induction ms with
  | nil => intro cur c hc; cases hc
  | cons m mstail ih =>
    intro cur c hc
    simp only [cropStatesAux] at hc
    rcases List.mem_cons.mp hc with h | h
    · subst h; exact cropMove_valid handle start cur m.1 m.2
    · exact ih _ c h

/-- Witness for the C3 theorem: a single large pointer move from the
uncropped state yields a valid crop state. -/
theorem crop_gesture_states_valid_witness :
    cropValid (cropMove CropHandle.lt ⟨0, 0, 0, 0⟩ ⟨0, 0, 0, 0⟩ 200 300) :=
  crop_gesture_states_valid CropHandle.lt ⟨0, 0, 0, 0⟩ [(200, 300)]
    (by norm_num) (by norm_num)
    (cropMove CropHandle.lt ⟨0, 0, 0, 0⟩ ⟨0, 0, 0, 0⟩ 200 300)
    (by simp [cropStates, cropStatesAux])

/-! ## Pointer-down dispatch (handleMouseDown) -/

/-- Snapshot of the gesture target taken at pointer-down. -/
inductive SnapshotData where
  | element (e : EditorElement)
  | bgImage (b : BgImage)
deriving DecidableEq

/-- Gesture kind requested by a pointer-down. -/
inductive GestureType where
  | move
  | resize
  | rotate
  | crop
deriving DecidableEq

/-- The editor state consulted and mutated by handleMouseDown. -/
structure InteractionState where
  elements : List EditorElement
  background : BackgroundState
  selectedId : Option String
  isCropping : Bool
  isErasing : Bool
  isDragging : Bool
  isResizing : Bool
  isRotating : Bool
  cropDrag : Option CropHandle
  dragStart : ℚ × ℚ
  snapshot : Option SnapshotData
deriving DecidableEq

/-- handleMouseDown from SimpleEditor.tsx.  While erasing it ignores the
event.  While cropping, a pointer-down whose target id differs from the
current selection only exits crop mode and returns.  Otherwise it
selects the target, records the gesture start point and a snapshot of
the target, and raises the flag of the requested gesture. -/
def handleMouseDown (st : InteractionState) (id : String) (gesture : GestureType)
    (cropHandle : Option CropHandle) (coords : ℚ × ℚ) : InteractionState :=
  if st.isErasing then st
  else if st.isCropping ∧ ¬ (some id = st.selectedId) then { st with isCropping := false }
  else
    let snap : Option SnapshotData :=
      if id = "bg" then
        match st.background.type, st.background.image with
        | .image, some bi => some (.bgImage bi)
        | _, _ => st.snapshot
      else
        match st.elements.find? (fun e => e.id == id) with
        | some el => some (.element el)
        | none => st.snapshot
    let st1 := { st with selectedId := some id, dragStart := coords, snapshot := snap }
    match gesture, cropHandle with
    | .crop, some h => { st1 with cropDrag := some h }
    | .crop, none => st1
    | .move, _ => { st1 with isDragging := true }
    | .resize, _ => { st1 with isResizing := true }
    | .rotate, _ => { st1 with isRotating := true }

/-- A concrete editor state in crop mode on element A, over a stack of
two elements A and B. -/
def cropStateExample : InteractionState :=
  { elements := [sampleShape "A" 0, sampleShape "B" 1]
    background := { type := .solid, image := none, color := some "#ffffff", gradient := none }
    selectedId := some "A", isCropping := true, isErasing := false
    isDragging := false, isResizing := false, isRotating := false
    cropDrag := none, dragStart := (0, 0), snapshot := none }

/-- C4 counterexample: while cropping element A, a pointer-down starting
a move gesture on element B cancels crop mode but does not select B and
does not enter the drag state, contradicting the claim that the
requested gesture then begins on B. -/
theorem crop_cancel_no_gesture_cex :
    (handleMouseDown cropStateExample "B" .move none (0, 0)).isCropping = false ∧
    (handleMouseDown cropStateExample "B" .move none (0, 0)).selectedId ≠ some "B" ∧
    (handleMouseDown cropStateExample "B" .move none (0, 0)).isDragging = false := by
  decide

/-- C4 (amended): while crop mode is active, a pointer-down on a target
other than the cropped element only cancels crop mode; the selection,
the gesture flags and everything else in the state stay unchanged, and
no gesture begins until a further pointer-down. -/
theorem crop_mode_pointer_down_other (st : InteractionState) (id : String)
    (gesture : GestureType) (cropHandle : Option CropHandle) (coords : ℚ × ℚ)
    (herase : st.isErasing = false) (hcrop : st.isCropping = true)
    (hne : ¬ (some id = st.selectedId)) :
    handleMouseDown st id gesture cropHandle coords = { st with isCropping := false } := by
  unfold handleMouseDown
  rw [if_neg (by simp [herase]), if_pos ⟨(by simp [hcrop]), hne⟩]

/-- Witness for the amended C4 theorem at the concrete crop state. -/
theorem crop_mode_pointer_down_other_witness :
    handleMouseDown cropStateExample "B" .move none (0, 0)
      = { cropStateExample with isCropping := false } :=
  crop_mode_pointer_down_other cropStateExample "B" .move none (0, 0)
    rfl rfl (by decide)

/-! ## Resize math (the resize branch of handleMouseMove) -/

/-- One resize pointer-move: snap is the pre-gesture snapshot of the
element, el is the element from the previous frame, and delta is the
total horizontal pixel delta since gesture start.  Sizes are recomputed
from the snapshot.  The snapshot of a resize gesture is always the same
element, so the two variant tags agree; the mismatched branches are
unreachable and kept as the identity. -/
def resizeStep (snap el : EditorElement) (delta : ℚ) : EditorElement :=
  match el.kind with
  | .text content _ fontFamily color align shadowEnabled =>
    match snap.kind with
    | .text _ fs0 _ _ _ _ =>
      { el with kind := (.text content (max 10 (fs0 + delta * 0.5))
          fontFamily color align shadowEnabled) }
    | _ => el
  | .image src _ _ ar borderRadius =>
    match snap.kind with
    | .image _ w0 _ ar0 _ =>
      let newWidth := max 20 (w0 + delta)
      { el with kind := .image src newWidth (newWidth / ar0) ar borderRadius }
    | _ => el
  | .shape shapeType _ _ color borderRadius =>
    match snap.kind with
    | .shape _ w0 h0 _ _ =>
      { el with kind := (.shape shapeType (max 20 (w0 + delta))
          (max 20 (h0 + delta * (if shapeType = ShapeType.circle then 1 else 1)))
          color borderRadius) }
    | _ => el

/-- One resize gesture: the element is snapshotted at pointer-down and
every pointer-move recomputes it from that snapshot and the total delta
of that move. -/
def resizeGesture (snap : EditorElement) (moves : List ℚ) : EditorElement :=
  moves.foldl (fun el d => resizeStep snap el d) snap

theorem foldl_resizeStep_text (snap : EditorElement) (c0 : String) (fs0 : ℚ)
    (ff0 col0 : String) (al0 : Align) (se0 : Bool)
    (hsnap : snap.kind = .text c0 fs0 ff0 col0 al0 se0) :
    ∀ (ms : List ℚ) (d : ℚ), ms.getLast? = some d →
    ∀ (el : EditorElement) (c : String) (fs : ℚ) (ff col : String) (al : Align)
      (se : Bool), el.kind = .text c fs ff col al se →
    (ms.foldl (fun e x => resizeStep snap e x) el).kind
      = .text c (max 10 (fs0 + d * 0.5)) ff col al se := by
  intro ms
  induction ms with
  | nil => intro d hd; cases hd
  | cons m mstail ih =>
    intro d hd el c fs ff col al se hel
    have hstep : (resizeStep snap el m).kind
        = .text c (max 10 (fs0 + m * 0.5)) ff col al se := by
      simp [resizeStep, hel, hsnap]
    cases mstail with
    | nil =>
      rw [List.getLast?_singleton] at hd
      cases hd
      simpa using hstep
    | cons m2 rest =>
      rw [List.getLast?_cons_cons] at hd
      exact ih d hd (resizeStep snap el m) c _ ff col al se hstep

theorem foldl_resizeStep_image (snap : EditorElement) (src0 : String)
    (w0 h0 ar0 : ℚ) (br0 : Option ℚ)
    (hsnap : snap.kind = .image src0 w0 h0 ar0 br0) :
    ∀ (ms : List ℚ) (d : ℚ), ms.getLast? = some d →
    ∀ (el : EditorElement) (src : String) (w h ar : ℚ) (br : Option ℚ),
      el.kind = .image src w h ar br →
    (ms.foldl (fun e x => resizeStep snap e x) el).kind
      = .image src (max 20 (w0 + d)) ((max 20 (w0 + d)) / ar0) ar br := by
  intro ms
  induction ms with
  | nil => intro d hd; cases hd
  | cons m mstail ih =>
    intro d hd el src w h ar br hel
    have hstep : (resizeStep snap el m).kind
        = .image src (max 20 (w0 + m)) ((max 20 (w0 + m)) / ar0) ar br := by
      simp [resizeStep, hel, hsnap]
    cases mstail with
    | nil =>
      rw [List.getLast?_singleton] at hd
      cases hd
      simpa using hstep
    | cons m2 rest =>
      rw [List.getLast?_cons_cons] at hd
      exact ih d hd (resizeStep snap el m) src _ _ ar br hstep

theorem foldl_resizeStep_shape (snap : EditorElement) (st0 : ShapeType)
    (w0 h0 : ℚ) (col0 : String) (br0 : Option ℚ)
    (hsnap : snap.kind = .shape st0 w0 h0 col0 br0) :
    ∀ (ms : List ℚ) (d : ℚ), ms.getLast? = some d →
    ∀ (el : EditorElement) (st : ShapeType) (w h : ℚ) (col : String)
      (br : Option ℚ), el.kind = .shape st w h col br →
    (ms.foldl (fun e x => resizeStep snap e x) el).kind
      = .shape st (max 20 (w0 + d)) (max 20 (h0 + d)) col br := by
  intro ms
  induction ms with
  | nil => intro d hd; cases hd
  | cons m mstail ih =>
    intro d hd el st w h col br hel
    have hstep : (resizeStep snap el m).kind
        = .shape st (max 20 (w0 + m)) (max 20 (h0 + m)) col br := by
      simp [resizeStep, hel, hsnap, ite_self]
    cases mstail with
    | nil =>
      rw [List.getLast?_singleton] at hd
      cases hd
      simpa using hstep
    | cons m2 rest =>
      rw [List.getLast?_cons_cons] at hd
      exact ih d hd (resizeStep snap el m) st _ _ col br hstep

/-- C5: for every resize gesture whose final total horizontal delta is
d, the recomputed attributes are a pure function of the pre-gesture
snapshot: a text element gets fontSize max 10 (fontSize0 + d * 0.5), an
image element gets width max 20 (width0 + d) with height re-derived
from the snapshot aspect ratio, and a shape element gets width and
height both max 20 (size0 + d). -/
theorem resize_gesture_formulas (snap : EditorElement) (moves : List ℚ) (d : ℚ)
    (hlast : moves.getLast? = some d) :
    (∀ (c : String) (fs0 : ℚ) (ff col : String) (al : Align) (se : Bool),
      snap.kind = .text c fs0 ff col al se →
      (resizeGesture snap moves).kind = .text c (max 10 (fs0 + d * 0.5)) ff col al se) ∧
    (∀ (src : String) (w0 h0 ar0 : ℚ) (br : Option ℚ),
      snap.kind = .image src w0 h0 ar0 br →
      (resizeGesture snap moves).kind
        = .image src (max 20 (w0 + d)) ((max 20 (w0 + d)) / ar0) ar0 br) ∧
    (∀ (stype : ShapeType) (w0 h0 : ℚ) (col : String) (br : Option ℚ),
      snap.kind = .shape stype w0 h0 col br →
      (resizeGesture snap moves).kind
        = .shape stype (max 20 (w0 + d)) (max 20 (h0 + d)) col br) := by
  refine ⟨?_, ?_, ?_⟩
  · intro c fs0 ff col al se hsnap
    exact foldl_resizeStep_text snap c fs0 ff col al se hsnap moves d hlast
      snap c fs0 ff col al se hsnap
  · intro src w0 h0 ar0 br hsnap
    exact foldl_resizeStep_image snap src w0 h0 ar0 br hsnap moves d hlast
      snap src w0 h0 ar0 br hsnap
  · intro stype w0 h0 col br hsnap
    exact foldl_resizeStep_shape snap stype w0 h0 col br hsnap moves d hlast
      snap stype w0 h0 col br hsnap

/-- Witness for the C5 theorem: a two-move resize gesture on a concrete
150 by 150 rectangle ends at the size computed from the final delta
alone. -/
theorem resize_gesture_formulas_witness :
    (resizeGesture (sampleShape "s" 0) [7, 30]).kind
      = .shape .rectangle (max 20 (150 + 30)) (max 20 (150 + 30)) "#3b82f6" (some 0) :=
  (resize_gesture_formulas (sampleShape "s" 0) [7, 30] 30 rfl).2.2
    .rectangle 150 150 "#3b82f6" (some 0) rfl

/-! ## Aspect lock of image elements -/

/-- The aspect-lock invariant: an image element's height always equals
its width divided by its stored aspect ratio.  Vacuous for text and
shape elements. -/
def imageAspectOk (el : EditorElement) : Prop :=
  ∀ (src : String) (w h ar : ℚ) (br : Option ℚ),
    el.kind = .image src w h ar br → h = w / ar

/-- The stored aspect ratio of an image element, none otherwise. -/
def imageAspect (el : EditorElement) : Option ℚ :=
  match el.kind with
  | .image _ _ _ ar _ => some ar
  | _ => none

theorem imageAspect_resizeStep (snap el : EditorElement) (d : ℚ) :
    imageAspect (resizeStep snap el d) = imageAspect el := by
  unfold resizeStep imageAspect
  cases hel : el.kind <;> cases hsnap : snap.kind <;> simp [hel]

theorem imageAspect_foldl_resizeStep (snap : EditorElement) :
    ∀ (ms : List ℚ) (el : EditorElement),
    imageAspect (ms.foldl (fun e x => resizeStep snap e x) el) = imageAspect el := by
  intro ms
  induction ms with
  | nil => intro el; rfl
  | cons m mstail ih =>
    intro el
    simpa [imageAspect_resizeStep] using ih (resizeStep snap el m)

theorem foldl_resizeStep_aspectOk (snap : EditorElement) (src0 : String)
    (w0 h0 ar0 : ℚ) (br0 : Option ℚ)
    (hsnap : snap.kind = .image src0 w0 h0 ar0 br0) :
    ∀ (ms : List ℚ) (el : EditorElement) (src : String) (w h : ℚ) (br : Option ℚ),
      el.kind = .image src w h ar0 br → h = w / ar0 →
    imageAspectOk (ms.foldl (fun e x => resizeStep snap e x) el) := by
  intro ms
  induction ms with
  | nil =>
    intro el src w h br hel hwh
    intro src1 w1 h1 ar1 br1 hk
    simp only [List.foldl_nil] at hk
    rw [hel] at hk
    cases hk
    exact hwh
  | cons m mstail ih =>
    intro el src w h br hel hwh
    have hstep : (resizeStep snap el m).kind
        = .image src (max 20 (w0 + m)) ((max 20 (w0 + m)) / ar0) ar0 br := by
      simp [resizeStep, hel, hsnap]
    exact ih (resizeStep snap el m) src _ _ br hstep rfl

theorem imageAspectOk_of_no_aspect (el : EditorElement)
    (h : imageAspect el = none) : imageAspectOk el := by
  intro src w h1 ar br hk
  unfold imageAspect at h
  rw [hk] at h
  cases h

theorem resizeGesture_aspectOk (snap : EditorElement) (moves : List ℚ)
    (h : imageAspectOk snap) : imageAspectOk (resizeGesture snap moves) := by
  unfold resizeGesture
  match hk : snap.kind with
  | .text c fs ff col al se =>
    refine imageAspectOk_of_no_aspect _ ?_
    rw [imageAspect_foldl_resizeStep]
    simp [imageAspect, hk]
  | .shape st w0 h0 col br =>
    refine imageAspectOk_of_no_aspect _ ?_
    rw [imageAspect_foldl_resizeStep]
    simp [imageAspect, hk]
  | .image src w0 h0 ar0 br =>
    exact foldl_resizeStep_aspectOk snap src w0 h0 ar0 br hk moves snap src w0 h0 br hk
      (h src w0 h0 ar0 br hk)

/-- A sequence of resize gestures: before each gesture the element is
snapshotted, then the gesture's pointer moves are applied. -/
def applyResizeGestures (el : EditorElement) (gestures : List (List ℚ)) :
    EditorElement :=
  gestures.foldl (fun e moves => resizeGesture e moves) el

theorem applyResizeGestures_aspectOk (el : EditorElement)
    (gestures : List (List ℚ)) (h : imageAspectOk el) :
    imageAspectOk (applyResizeGestures el gestures) := by
  unfold applyResizeGestures
  induction gestures generalizing el with
  | nil => exact h
  | cons g rest ih => exact ih (resizeGesture el g) (resizeGesture_aspectOk el g h)

theorem applyResizeGestures_aspect (el : EditorElement)
    (gestures : List (List ℚ)) :
    imageAspect (applyResizeGestures el gestures) = imageAspect el := by
  unfold applyResizeGestures
  induction gestures generalizing el with
  | nil => rfl
  | cons g rest ih =>
    rw [List.foldl_cons, ih (resizeGesture el g)]
    exact imageAspect_foldl_resizeStep el g el

/-- C6: an image element created from an image of positive intrinsic
size satisfies height = width / aspectRatio at creation and after any
sequence of resize gestures, and its stored aspect ratio stays the
intrinsic ratio fixed at creation. -/
theorem image_aspect_invariant (newId : String) (cw ch : ℚ) (z : Nat)
    (src : String) (imgW imgH : ℚ) (gestures : List (List ℚ))
    (hW : 0 < imgW) (hH : 0 < imgH) :
    imageAspectOk (applyResizeGestures
      (mkImageElement newId cw ch z src imgW imgH) gestures) ∧
    imageAspect (applyResizeGestures
      (mkImageElement newId cw ch z src imgW imgH) gestures)
      = some (imgW / imgH) := by
  have har : (0 : ℚ) < imgW / imgH := div_pos hW hH
  have hok : imageAspectOk (mkImageElement newId cw ch z src imgW imgH) := by
    intro src1 w1 h1 ar1 br1 hk
    simp only [mkImageElement] at hk
    rw [ElementKind.image.injEq] at hk
    rcases hk with ⟨-, hw, hh, har1, -⟩
    by_cases hge : 1 ≤ imgW / imgH
    · rw [if_pos hge] at hw hh
      rw [← hw, ← hh, ← har1]
    · rw [if_neg hge] at hw hh
      rw [← hw, ← hh, ← har1]
      rw [mul_div_cancel_right₀ 200 (ne_of_gt har)]
  refine ⟨applyResizeGestures_aspectOk _ gestures hok, ?_⟩
  rw [applyResizeGestures_aspect]
  simp [mkImageElement, imageAspect]

/-- Witness for the C6 theorem: a concrete 4 by 2 image resized through
two gestures keeps its intrinsic aspect ratio. -/
theorem image_aspect_invariant_witness :
    imageAspect (applyResizeGestures (mkImageElement "i" 500 500 0 "s" 4 2)
      [[10], [5, 7]]) = some (4 / 2) :=
  (image_aspect_invariant "i" 500 500 0 "s" 4 2 [[10], [5, 7]]
    (by norm_num) (by norm_num)).2

/-! ## Background variant switching -/

/-- The solid variant button: spreads the previous background state and
changes only the type tag. -/
def switchBackgroundToSolid (bg : BackgroundState) : BackgroundState :=
  { bg with type := .solid }

/-- handleBackgroundUpload: a successful background image upload builds
a fresh background record with default pan (0, 0) and scale 1. -/
def handleBackgroundUpload (src : String) : BackgroundState :=
  { type := .image, image := some ⟨src, 0, 0, 1⟩, color := none, gradient := none }

/-- A concrete image background with nondefault pan and scale. -/
def bgImageExample : BackgroundState :=
  { type := .image, image := some ⟨"bgsrc", 5, 7, 2⟩, color := none, gradient := none }

/-- C7 counterexample: switching a panned and zoomed image background to
the solid variant keeps the image pan/scale parameters stored in the
background state, contradicting the claim that no image parameters
survive. -/
theorem background_solid_keeps_image_params_cex :
    (switchBackgroundToSolid bgImageExample).type = BgType.solid ∧
    (switchBackgroundToSolid bgImageExample).image = some ⟨"bgsrc", 5, 7, 2⟩ := by
  exact ⟨rfl, rfl⟩

/-- C7 (amended): switching the background from image to solid changes
only the variant tag and leaves the stale image pan/scale parameters
stored (unused while the type is solid); returning to the image variant
goes through a fresh upload, which always resets pan to (0, 0) and
scale to 1, so the stale values are never resumed. -/
theorem background_variant_switch (bg : BackgroundState) (src : String) :
    (switchBackgroundToSolid bg).type = BgType.solid ∧
    (switchBackgroundToSolid bg).image = bg.image ∧
    (handleBackgroundUpload src).type = BgType.image ∧
    (handleBackgroundUpload src).image = some ⟨src, 0, 0, 1⟩ :=
  ⟨rfl, rfl, rfl, rfl⟩

/-! ## Export pipeline (the render loop of handleDownload) -/

/-- The draw operations the export rasterizer performs, in order. -/
inductive DrawOp where
  | bgSolidFill (color : String)
  | bgGradientFill (g : GradientData)
  | bgWhiteFill
  | bgImageDraw (img : BgImage)
  | bgImageFailLog
  | overlayFill (color : String) (opacity : ℚ)
  | textDraw (el : EditorElement)
  | imageDraw (el : EditorElement)
  | imageFailLog (src : String)
  | shapeDraw (el : EditorElement)
deriving DecidableEq

/-- Background pass of the export render: decode says whether a given
image source rasterizes successfully. -/
def renderBackground (decode : String → Bool) (bg : BackgroundState) : List DrawOp :=
  match bg.type with
  | .solid => [.bgSolidFill (bg.color.getD "#ffffff")]
  | .gradient =>
    match bg.gradient with
    | some g => [.bgGradientFill g]
    | none => []
  | .image =>
    match bg.image with
    | some img =>
      .bgWhiteFill :: (if decode img.src then [.bgImageDraw img] else [.bgImageFailLog])
    | none => []

/-- Per-element pass of the export render: an image element whose source
fails to decode is caught and logged; text and shape elements never
fail. -/
def renderElement (decode : String → Bool) (el : EditorElement) : List DrawOp :=
  match el.kind with
  | .text _ _ _ _ _ _ => [.textDraw el]
  | .image src _ _ _ _ => if decode src then [.imageDraw el] else [.imageFailLog src]
  | .shape _ _ _ _ _ => [.shapeDraw el]

/-- The export render: background, then overlay if visible, then every
element in stack order. -/
def renderExport (decode : String → Bool) (bg : BackgroundState)
    (ov : OverlayState) (elements : List EditorElement) : List DrawOp :=
  renderBackground decode bg
    ++ (if 0 < ov.opacity then [.overlayFill ov.color ov.opacity] else [])
    ++ elements.flatMap (renderElement decode)

/-- C8: during export, an image element whose bytes fail to decode
contributes only a logged failure; the export still draws the
background, the overlay, and every other element, in ascending stack
order, instead of aborting. -/
theorem export_skips_failed_image (decode : String → Bool) (bg : BackgroundState)
    (ov : OverlayState) (pre post : List EditorElement) (el : EditorElement)
    (src : String) (w h ar : ℚ) (br : Option ℚ)
    (hk : el.kind = .image src w h ar br) (hfail : decode src = false) :
    renderExport decode bg ov (pre ++ el :: post)
      = renderBackground decode bg
        ++ (if 0 < ov.opacity then [DrawOp.overlayFill ov.color ov.opacity] else [])
        ++ (pre.flatMap (renderElement decode)
            ++ DrawOp.imageFailLog src :: post.flatMap (renderElement decode)) := by
  unfold renderExport
  congr 1
  rw [List.flatMap_append]
  simp [renderElement, hk, hfail]

/-- A concrete solid background. -/
def bgSolidExample : BackgroundState :=
  { type := .solid, image := none, color := some "#ffffff", gradient := none }

/-- A minimal concrete image element with the given source. -/
def sampleImage (id : String) (src : String) (z : Nat) : EditorElement :=
  { id := id, x := 250, y := 250, rotation := 0, zIndex := z
    crop := some ⟨0, 0, 0, 0⟩, border := some ⟨0, .solid, "#000000"⟩
    shadow := some ⟨"#000000", 1, 0, 0, 0⟩, opacity := none
    kind := .image src 200 200 1 (some 0) }

/-- Witness for the C8 theorem: a two-element export where the second
element's image source fails to decode. -/
theorem export_skips_failed_image_witness :
    renderExport (fun s => !(s == "bad")) bgSolidExample ⟨"#000000", 0⟩
        ([sampleShape "a" 0] ++ sampleImage "b" "bad" 1 :: [])
      = renderBackground (fun s => !(s == "bad")) bgSolidExample
        ++ (if 0 < (⟨"#000000", 0⟩ : OverlayState).opacity
            then [DrawOp.overlayFill (⟨"#000000", 0⟩ : OverlayState).color
              (⟨"#000000", 0⟩ : OverlayState).opacity] else [])
        ++ ([sampleShape "a" 0].flatMap (renderElement (fun s => !(s == "bad")))
            ++ DrawOp.imageFailLog "bad"
              :: ([] : List EditorElement).flatMap (renderElement (fun s => !(s == "bad")))) :=
  export_skips_failed_image (fun s => !(s == "bad")) bgSolidExample ⟨"#000000", 0⟩
    [sampleShape "a" 0] [] (sampleImage "b" "bad" 1) "bad" 200 200 1 (some 0)
    rfl rfl

/-! ## Eraser tool commit and cancel -/

/-- The scene-level editor state the eraser tool interacts with.  The
eraserCanvas field holds the scratch raster buffer, already represented
by its re-encoded image source. -/
structure EditorState where
  background : BackgroundState
  overlay : OverlayState
  elements : List EditorElement
  selectedId : Option String
  isErasing : Bool
  eraserCanvas : Option String
deriving DecidableEq

/-- Writing a new source into one element.  On a non-image element the
source code would add a stray src property that nothing ever reads, so
the modelled element is unchanged. -/
def setElementSrc (el : EditorElement) (v : String) : EditorElement :=
  match el.kind with
  | .image _ w h ar br => { el with kind := .image v w h ar br }
  | _ => el

/-- updateElement specialised to the src key: a no-op without a real
element selection, otherwise a map over the stack touching only the
selected id. -/
def updateElementSrc (selectedId : Option String)
    (elements : List EditorElement) (v : String) : List EditorElement :=
  match selectedId with
  | none => elements
  | some sel =>
    if sel = "bg" then elements
    else elements.map (fun el => if el.id == sel then setElementSrc el v else el)

/-- The eraser close button: only leaves eraser mode. -/
def cancelEraser (st : EditorState) : EditorState := { st with isErasing := false }

/-- saveEraserResult: when a scratch buffer and a selection exist, the
re-encoded buffer is written back as the selected element's source;
either way eraser mode ends. -/
def saveEraserResult (st : EditorState) : EditorState :=
  match st.eraserCanvas, st.selectedId with
  | some data, some _ =>
    { st with isErasing := false, elements := updateElementSrc st.selectedId st.elements data }
  | _, _ => { st with isErasing := false }

/-- C9: closing the eraser without committing leaves the scene model
entirely unchanged (elements with their image sources, background and
overlay), while a commit writes the scratch buffer back as the selected
element's new image source and leaves every other element unchanged. -/
theorem eraser_cancel_and_commit (st : EditorState) :
    ((cancelEraser st).elements = st.elements ∧
     (cancelEraser st).background = st.background ∧
     (cancelEraser st).overlay = st.overlay) ∧
    (∀ data sel, st.eraserCanvas = some data → st.selectedId = some sel →
      ¬ (sel = "bg") →
      ((saveEraserResult st).background = st.background ∧
       (saveEraserResult st).overlay = st.overlay ∧
       ∀ el ∈ st.elements,
         (el.id = sel → setElementSrc el data ∈ (saveEraserResult st).elements) ∧
         (¬ (el.id = sel) → el ∈ (saveEraserResult st).elements))) := by
  refine ⟨⟨rfl, rfl, rfl⟩, ?_⟩
  intro data sel hdata hsel hbg
  unfold saveEraserResult
  rw [hdata, hsel]
  dsimp only
  refine ⟨rfl, rfl, ?_⟩
  intro el hel
  simp only [updateElementSrc, if_neg hbg]
  constructor
  · intro hid
    refine List.mem_map.mpr ⟨el, hel, ?_⟩
    simp [hid]
  · intro hid
    refine List.mem_map.mpr ⟨el, hel, ?_⟩
    simp [hid]

/-- A concrete editor state inside the eraser modal over one image
element. -/
def eraserStateExample : EditorState :=
  { background := bgSolidExample, overlay := ⟨"#000000", 0⟩
    elements := [sampleImage "A" "old" 0]
    selectedId := some "A", isErasing := true, eraserCanvas := some "newpng" }

/-- Witness for the C9 theorem: committing the scratch buffer rewrites
the selected element's source. -/
theorem eraser_cancel_and_commit_witness :
    setElementSrc (sampleImage "A" "old" 0) "newpng"
      ∈ (saveEraserResult eraserStateExample).elements :=
  (((eraser_cancel_and_commit eraserStateExample).2 "newpng" "A" rfl rfl
      (by decide)).2.2 (sampleImage "A" "old" 0) (by simp [eraserStateExample])).1 rfl

/-! ## White-background removal (removeWhiteBackground) -/

/-- One RGBA pixel of the decoded raster. -/
structure Pixel where
  r : Nat
  g : Nat
  b : Nat
  a : Nat
deriving DecidableEq

/-- The per-pixel body of the removeWhiteBackground loop: a pixel whose
red, green and blue channels each exceed the 240 threshold has its
alpha zeroed, every other pixel is untouched. -/
def removeWhitePixel (p : Pixel) : Pixel :=
  if 240 < p.r ∧ 240 < p.g ∧ 240 < p.b then { p with a := 0 } else p

/-- removeWhiteBackground applied to the raster's pixel data. -/
def removeWhiteBackground (img : List Pixel) : List Pixel :=
  img.map removeWhitePixel

/-- C10: after white-background removal, every pixel whose red, green
and blue channels each exceed 240 keeps its color channels and gets
alpha 0, and every other pixel is exactly unchanged. -/
theorem removeWhiteBackground_pixels (img : List Pixel) (i : Nat) (p : Pixel)
    (hp : img[i]? = some p) :
    (240 < p.r ∧ 240 < p.g ∧ 240 < p.b →
      (removeWhiteBackground img)[i]? = some ⟨p.r, p.g, p.b, 0⟩) ∧
    (¬ (240 < p.r ∧ 240 < p.g ∧ 240 < p.b) →
      (removeWhiteBackground img)[i]? = some p) := by
  unfold removeWhiteBackground
  rw [List.getElem?_map, hp]
  constructor
  · intro hw
    simp [removeWhitePixel, hw]
  · intro hw
    simp [removeWhitePixel, hw]

/-- Witness for the C10 theorem: an off-white pixel loses its alpha, its
color channels intact. -/
theorem removeWhiteBackground_pixels_witness :
    (removeWhiteBackground [⟨250, 250, 250, 255⟩, ⟨10, 20, 30, 255⟩])[0]?
      = some ⟨250, 250, 250, 0⟩ :=
  (removeWhiteBackground_pixels [⟨250, 250, 250, 255⟩, ⟨10, 20, 30, 255⟩] 0
    ⟨250, 250, 250, 255⟩ rfl).1 (by decide)

end ImageEditStudio
